import Mathlib

/-!
Shallow embedding of the pitot aviation receiver (Rust) used to check the
natural-language specification against the code.

Conventions used throughout:
* `Instant` (Rust monotonic clock) is modelled as a natural number of
  milliseconds; `Duration::as_secs()` becomes truncating division by 1000.
* Machine integers are modelled as `Nat`/`Int` with explicit wrap-around
  (`% 2^w`) where the source relies on it.
* `f32` values appearing in pure arithmetic (courses, altitudes, rates)
  are modelled as exact rationals; the rounding-mode of `f32::round`
  (half away from zero) is modelled explicitly by `rustRound`.
-/

namespace Pitot

/-- Function update, modelling an in-place write `buf[i] = v` into a byte
buffer represented as `ℕ → ℕ`. -/
def upd (f : ℕ → ℕ) (i v : ℕ) : ℕ → ℕ := fun j => if j = i then v else f j

/-- Modelling `buf[i] |= v`. -/
def orUpd (f : ℕ → ℕ) (i v : ℕ) : ℕ → ℕ := upd f i (f i ||| v)

/-- `f32::round` rounds half away from zero, unlike Mathlib's `round`
(half towards positive infinity); the difference matters at negative
half-integers. -/
def rustRound (q : ℚ) : ℤ := if q < 0 then -round (-q) else round q

/-! ## `crs_to_gdl90` (src/protocol/gdl90.rs)

The Rust source normalizes its course argument with two `while` loops and
then divides by `TRACK_RESOLUTION = 360.0 / 256.0`, casting the quotient
`as u8`.  The loops are modelled by the two well-founded recursions below.
The `as u8` cast is modelled as truncation mod 256, matching the
repository's own unit test `crs_to_gdl90(360) == 0x00`. -/

/-- The loop `while c > 360 { c -= 360; }`. -/
def sub360 (c : ℚ) : ℚ :=
  if h : 360 < c then sub360 (c - 360) else c
termination_by (⌈c / 360⌉).toNat
decreasing_by
  have h1 : ⌈(c - 360) / 360⌉ = ⌈c / 360⌉ - 1 := by
    have : (c - 360) / 360 = c / 360 - 1 := by ring
    rw [this]
    exact_mod_cast Int.ceil_sub_int (c / 360) 1
  have h2 : (1 : ℤ) < ⌈c / 360⌉ := by
    rw [Int.lt_ceil]
    push_cast
    rw [lt_div_iff (by norm_num : (0:ℚ) < 360)]
    linarith
  omega

/-- The loop `while c < 0 { c += 360; }`. -/
def add360 (c : ℚ) : ℚ :=
  if h : c < 0 then add360 (c + 360) else c
termination_by (⌈-c / 360⌉).toNat
decreasing_by
  have h1 : ⌈-(c + 360) / 360⌉ = ⌈-c / 360⌉ - 1 := by
    have : -(c + 360) / 360 = -c / 360 - 1 := by ring
    rw [this]
    exact_mod_cast Int.ceil_sub_int (-c / 360) 1
  have h2 : (0 : ℤ) < ⌈-c / 360⌉ := by
    rw [Int.lt_ceil]
    push_cast
    rw [lt_div_iff (by norm_num : (0:ℚ) < 360)]
    linarith
  omega

/-- `crs_to_gdl90` from src/protocol/gdl90.rs. -/
def crs_to_gdl90 (c : ℚ) : ℕ :=
  (⌊add360 (sub360 c) / (360 / 256 : ℚ)⌋).toNat % 256

/-- The specification-side formula for the course encoding: normalize the
course into `[0, 360)` (reduction mod 360) and take
`floor(c / (360/256))`, which then fits in one byte. -/
def crsSpec (c : ℚ) : ℕ :=
  (⌊(c - 360 * ⌊c / 360⌋) / (360 / 256 : ℚ)⌋).toNat

/-! ## `run_every!` (src/utils.rs) -/

/-- The threshold `(handle.get_frequency() as f32 / hz as f32) as u32`
computed by the `run_every!` macro, modelled with exact rational
division. -/
def run_every_threshold (freq : ℕ) (hz : ℚ) : ℕ := (⌊(freq : ℚ) / hz⌋).toNat

/-- One tick of the `run_every!` discipline: increment the counter; when
it has reached the threshold, reset it to 0 and run the body (the `Bool`
records whether the body ran). -/
def run_every_step (t counter : ℕ) : ℕ × Bool :=
  let c := counter + 1
  if t ≤ c then (0, true) else (c, false)

/-- Counter value after `n` ticks starting from 0 (all counters in the
source start at 0). -/
def run_every_counter (t : ℕ) : ℕ → ℕ
  | 0 => 0
  | n + 1 => (run_every_step t (run_every_counter t n)).1

/-- Whether the body runs on the `(n+1)`-st tick. -/
def run_every_fires (t n : ℕ) : Bool := (run_every_step t (run_every_counter t n)).2

/-! ## `icao_to_tail` (src/processor/traffic.rs) -/

/-- `LIMITED_ALPHABET`: base-25 letters with no I and no O. -/
def LIMITED_ALPHABET : String := "ABCDEFGHJKLMNPQRSTUVWXYZ"

/-- `LIMITED_ALPHABET.as_bytes()[i] as char`. -/
def alphabetChar (i : ℕ) : Char := LIMITED_ALPHABET.toList.getD i 'A'

/-- `n_letters` from src/processor/traffic.rs. -/
def n_letters (rem : ℕ) (reg : String) : String :=
  if rem = 0 then reg
  else
    let rem := rem - 1
    let reg := reg.push (alphabetChar (rem / 25))
    let rem2 := rem % 25
    if rem2 = 0 then reg
    else reg.push (alphabetChar (rem2 - 1))

/-- `icao_to_tail` from src/processor/traffic.rs; the Rust range pattern
`0xA00001...0xAFFFFF` is inclusive at both ends. -/
def icao_to_tail (icao : ℕ) : Option String :=
  if 0xA00001 ≤ icao ∧ icao ≤ 0xAFFFFF then
    if 0xADF7C7 < icao then some "US-MIL"
    else
      let res : String := "N"
      let offset := icao - 0xA00001
      if 915399 < offset then none
      else
        let res := res.push (Char.ofNat (offset / 101711 + 1 + Char.toNat '0'))
        let offset := offset % 101711
        if offset ≤ 600 then some (n_letters offset res)
        else
          let offset := offset - 601
          let res := res.push (Char.ofNat (offset / 10111 + Char.toNat '0'))
          let offset := offset % 10111
          if offset ≤ 600 then some (n_letters offset res)
          else
            let offset := offset - 601
            let res := res.push (Char.ofNat (offset / 951 + Char.toNat '0'))
            let offset := offset % 951
            if offset ≤ 600 then some (n_letters offset res)
            else
              let offset := offset - 601
              let res := res.push (Char.ofNat (offset / 35 + Char.toNat '0'))
              let offset := offset % 35
              if offset ≤ 24 then
                some (if offset ≠ 0 then res.push (alphabetChar (offset - 1)) else res)
              else some (res.push (Char.ofNat (offset - 25 + Char.toNat '0')))
  else none

/-! ## Ownship processor (src/processor/ownship.rs) -/

inductive FixQuality where
  | TwoDim | ThreeDim | SBAS | Unknown
  deriving DecidableEq

/-- `Fix` from src/sensor/gnss/mod.rs; a `Reading` is a value plus an
optional accuracy.  Rust tuple index `.0`/`.1` becomes Lean `.1`/`.2`. -/
structure Fix where
  quality : FixQuality
  num_sv : ℕ
  lat_lon : (ℚ × ℚ) × Option ℕ
  height_msl : ℤ × Option ℕ
  height_ellipsoid : ℤ × Option ℕ
  gs : ℕ × Option ℕ
  true_course : ℚ × Option ℚ
  mag_dec : Option (ℚ × Option ℚ)

/-- `Ownship` from src/processor/ownship.rs. -/
structure Ownship where
  valid : Bool
  lat : ℚ
  lon : ℚ
  msl_altitude : ℤ
  hae_altitude : ℤ
  pressure_altitude : Option ℤ
  vs : Option ℤ
  nic : ℕ
  nacp : ℕ
  gs : ℚ
  true_track : ℚ

/-- `Ownship::default()`. -/
def ownshipDefault : Ownship :=
  { valid := false, lat := 0, lon := 0, msl_altitude := 0, hae_altitude := 0,
    pressure_altitude := none, vs := none, nic := 0, nacp := 0, gs := 0,
    true_track := 0 }

/-- `mm_to_ft!` from src/utils.rs (the f32 constant modelled as the exact
decimal it denotes in the source text). -/
def mm_to_ft (x : ℚ) : ℚ := x * 0.00328084

/-- `mmps_to_kts!` from src/utils.rs. -/
def mmps_to_kts (x : ℚ) : ℚ := x * 0.00194384

/-- The `SensorData::GNSS(GNSSData::TimeFix { fix: Some(f), .. })` arm of
`Ownship::run` from src/processor/ownship.rs. -/
def ownship_timefix (s : Ownship) (f : Fix) : Ownship :=
  let nn : ℕ × ℕ :=
    match f.lat_lon.2 with
    | some acc =>
      (9,
        let n : ℚ := (acc : ℚ) / 1000
        if n < 3 then 11 else if n < 10 then 10 else if n < 30 then 9
        else if n < 92.6 then 8 else if n < 185.2 then 7
        else if n < 555.6 then 6 else 0)
    | none => (0, 0)
  { s with
    nic := nn.1, nacp := nn.2,
    lat := f.lat_lon.1.1, lon := f.lat_lon.1.2,
    msl_altitude := rustRound (mm_to_ft (f.height_msl.1 : ℚ)),
    hae_altitude := rustRound (mm_to_ft (f.height_ellipsoid.1 : ℚ)),
    gs := mmps_to_kts (f.gs.1 : ℚ),
    true_track := f.true_course.1,
    valid := true }

/-- Concrete fix used to witness the C6 theorem: horizontal accuracy
5000 mm = 5 m. -/
def exFix : Fix :=
  { quality := FixQuality.ThreeDim, num_sv := 8,
    lat_lon := ((37.75, -122.5), some 5000), height_msl := (100000, some 5000),
    height_ellipsoid := (90000, some 5000), gs := (10000, some 100),
    true_course := (123.4, some 1), mag_dec := none }

/-! ## Traffic processor (src/processor/traffic.rs) -/

inductive AddressType where
  | ADSBICAO | ADSBOther | ADSRICAO | ADSROther | TISBICAO | TISBOther | Unknown
  deriving DecidableEq

inductive SpeedType where
  | GS | IAS | TAS
  deriving DecidableEq

inductive AltitudeType where
  | Baro | GNSS
  deriving DecidableEq

inductive HeadingType where
  | True | Mag
  deriving DecidableEq

inductive TrafficSource where
  | UAT | ES
  deriving DecidableEq

/-- `TrafficData` from src/sensor/sdr/mod.rs (the sensor-level traffic
report). -/
structure TrafficData where
  addr : ℕ × AddressType
  altitude : Option (ℤ × AltitudeType)
  gnss_delta : Option ℤ
  heading : Option (ℕ × HeadingType)
  speed : Option (ℕ × SpeedType)
  vs : Option ℤ
  squawk : Option ℕ
  callsign : Option String
  category : Option ℕ
  lat_lon : Option (ℚ × ℚ)
  nic : Option ℕ
  nacp : Option ℕ
  on_ground : Option Bool
  source : TrafficSource

/-- `Target` from src/processor/traffic.rs; volatile fields carry the
`Instant` (ms) of their last update. -/
structure Target where
  addr : ℕ × AddressType
  altitude : Option (ℤ × AltitudeType × ℕ)
  gnss_delta : Option ℤ
  heading : Option (ℕ × HeadingType × ℕ)
  speed : Option (ℕ × SpeedType × ℕ)
  vs : Option (ℤ × ℕ)
  squawk : Option ℕ
  callsign : Option String
  category : Option ℕ
  lat_lon : Option ((ℚ × ℚ) × ℕ)
  nic : Option ℕ
  nacp : Option ℕ
  on_ground : Option Bool
  last_seen : ℕ
  source : TrafficSource

/-- The field-merge part of `Traffic::run` (src/processor/traffic.rs,
after the ADS-B lockout check): overwrite `addr`, `last_seen`, `source`,
copy each present optional field stamping it with `clock`, and retain the
old value of absent fields. -/
def mergeTarget (clock : ℕ) (trfc : Target) (t : TrafficData) : Target :=
  { addr := t.addr
    altitude := match t.altitude with
      | some (alt, typ) => some (alt, typ, clock)
      | none => trfc.altitude
    gnss_delta := match t.gnss_delta with
      | some d => some d
      | none => trfc.gnss_delta
    heading := match t.heading with
      | some (hdg, typ) => some (hdg, typ, clock)
      | none => trfc.heading
    speed := match t.speed with
      | some (spd, typ) => some (spd, typ, clock)
      | none => trfc.speed
    vs := match t.vs with
      | some v => some (v, clock)
      | none => trfc.vs
    squawk := match t.squawk with
      | some sq => some sq
      | none => trfc.squawk
    callsign := match t.callsign with
      | some cs => some cs
      | none => trfc.callsign
    category := match t.category with
      | some c => some c
      | none => trfc.category
    lat_lon := match t.lat_lon with
      | some ll => some (ll, clock)
      | none => trfc.lat_lon
    nic := match t.nic with
      | some n => some n
      | none => trfc.nic
    nacp := match t.nacp with
      | some na => some na
      | none => trfc.nacp
    on_ground := match t.on_ground with
      | some g => some g
      | none => trfc.on_ground
    last_seen := clock
    source := t.source }

/-- One traffic update against an existing target, from `Traffic::run`:
the ADS-B lockout skips ADS-R/TIS-B updates while direct ADS-B data is
less than `ADS_B_LOCKOUT_INTERVAL = 2` seconds old. -/
def updateTarget (clock : ℕ) (trfc : Target) (t : TrafficData) : Target :=
  if (trfc.addr.2 = AddressType.ADSBICAO ∨ trfc.addr.2 = AddressType.ADSBOther) ∧
     (t.addr.2 ≠ AddressType.ADSBICAO ∧ t.addr.2 ≠ AddressType.ADSBOther) ∧
     (clock - trfc.last_seen) / 1000 < 2
  then trfc
  else mergeTarget clock trfc t

/-- Concrete existing ADS-B target used by witnesses. -/
def exTarget4 : Target :=
  { addr := (0xA1B2C3, AddressType.ADSBICAO), altitude := none, gnss_delta := none,
    heading := none, speed := none, vs := none, squawk := none, callsign := none,
    category := none, lat_lon := none, nic := none, nacp := none, on_ground := none,
    last_seen := 0, source := TrafficSource.ES }

/-- Concrete incoming ADS-R report used by witnesses. -/
def exReport4 : TrafficData :=
  { addr := (0xA1B2C3, AddressType.ADSRICAO), altitude := some (5000, AltitudeType.Baro),
    gnss_delta := none, heading := none, speed := none, vs := none, squawk := none,
    callsign := none, category := none, lat_lon := none, nic := none, nacp := none,
    on_ground := none, source := TrafficSource.UAT }

/-! ## GDL 90 protocol (src/protocol/gdl90.rs) -/

/-- A protocol payload: `queueable` marks large uplinks eligible for
rate-limited drain and replay. -/
structure Payload where
  queueable : Bool
  payload : List ℕ

/-- `CRC16_TABLE` from src/protocol/gdl90.rs (CRC-16/CCITT, polynomial
0x1021, init 0x0000). -/
def CRC16_TABLE : List ℕ := [
  0x0000, 0x1021, 0x2042, 0x3063, 0x4084, 0x50A5, 0x60C6, 0x70E7, 0x8108, 0x9129, 0xA14A, 0xB16B,
  0xC18C, 0xD1AD, 0xE1CE, 0xF1EF, 0x1231, 0x0210, 0x3273, 0x2252, 0x52B5, 0x4294, 0x72F7, 0x62D6,
  0x9339, 0x8318, 0xB37B, 0xA35A, 0xD3BD, 0xC39C, 0xF3FF, 0xE3DE, 0x2462, 0x3443, 0x0420, 0x1401,
  0x64E6, 0x74C7, 0x44A4, 0x5485, 0xA56A, 0xB54B, 0x8528, 0x9509, 0xE5EE, 0xF5CF, 0xC5AC, 0xD58D,
  0x3653, 0x2672, 0x1611, 0x0630, 0x76D7, 0x66F6, 0x5695, 0x46B4, 0xB75B, 0xA77A, 0x9719, 0x8738,
  0xF7DF, 0xE7FE, 0xD79D, 0xC7BC, 0x48C4, 0x58E5, 0x6886, 0x78A7, 0x0840, 0x1861, 0x2802, 0x3823,
  0xC9CC, 0xD9ED, 0xE98E, 0xF9AF, 0x8948, 0x9969, 0xA90A, 0xB92B, 0x5AF5, 0x4AD4, 0x7AB7, 0x6A96,
  0x1A71, 0x0A50, 0x3A33, 0x2A12, 0xDBFD, 0xCBDC, 0xFBBF, 0xEB9E, 0x9B79, 0x8B58, 0xBB3B, 0xAB1A,
  0x6CA6, 0x7C87, 0x4CE4, 0x5CC5, 0x2C22, 0x3C03, 0x0C60, 0x1C41, 0xEDAE, 0xFD8F, 0xCDEC, 0xDDCD,
  0xAD2A, 0xBD0B, 0x8D68, 0x9D49, 0x7E97, 0x6EB6, 0x5ED5, 0x4EF4, 0x3E13, 0x2E32, 0x1E51, 0x0E70,
  0xFF9F, 0xEFBE, 0xDFDD, 0xCFFC, 0xBF1B, 0xAF3A, 0x9F59, 0x8F78, 0x9188, 0x81A9, 0xB1CA, 0xA1EB,
  0xD10C, 0xC12D, 0xF14E, 0xE16F, 0x1080, 0x00A1, 0x30C2, 0x20E3, 0x5004, 0x4025, 0x7046, 0x6067,
  0x83B9, 0x9398, 0xA3FB, 0xB3DA, 0xC33D, 0xD31C, 0xE37F, 0xF35E, 0x02B1, 0x1290, 0x22F3, 0x32D2,
  0x4235, 0x5214, 0x6277, 0x7256, 0xB5EA, 0xA5CB, 0x95A8, 0x8589, 0xF56E, 0xE54F, 0xD52C, 0xC50D,
  0x34E2, 0x24C3, 0x14A0, 0x0481, 0x7466, 0x6447, 0x5424, 0x4405, 0xA7DB, 0xB7FA, 0x8799, 0x97B8,
  0xE75F, 0xF77E, 0xC71D, 0xD73C, 0x26D3, 0x36F2, 0x0691, 0x16B0, 0x6657, 0x7676, 0x4615, 0x5634,
  0xD94C, 0xC96D, 0xF90E, 0xE92F, 0x99C8, 0x89E9, 0xB98A, 0xA9AB, 0x5844, 0x4865, 0x7806, 0x6827,
  0x18C0, 0x08E1, 0x3882, 0x28A3, 0xCB7D, 0xDB5C, 0xEB3F, 0xFB1E, 0x8BF9, 0x9BD8, 0xABBB, 0xBB9A,
  0x4A75, 0x5A54, 0x6A37, 0x7A16, 0x0AF1, 0x1AD0, 0x2AB3, 0x3A92, 0xFD2E, 0xED0F, 0xDD6C, 0xCD4D,
  0xBDAA, 0xAD8B, 0x9DE8, 0x8DC9, 0x7C26, 0x6C07, 0x5C64, 0x4C45, 0x3CA2, 0x2C83, 0x1CE0, 0x0CC1,
  0xEF1F, 0xFF3E, 0xCF5D, 0xDF7C, 0xAF9B, 0xBFBA, 0x8FD9, 0x9FF8, 0x6E17, 0x7E36, 0x4E55, 0x5E74,
  0x2E93, 0x3EB2, 0x0ED1, 0x1EF0]

/-- One step of the CRC scan from `GDL90::prepare_payload`:
`crc = TABLE[crc >> 8] ^ (crc << 8) ^ b` on `u16`. -/
def crc16_step (crc b : ℕ) : ℕ :=
  CRC16_TABLE.getD (crc >>> 8) 0 ^^^ ((crc <<< 8) % 65536) ^^^ b

/-- The CRC scan over the message bytes, initial value 0. -/
def crc16 (msg : List ℕ) : ℕ := msg.foldl crc16_step 0

/-- Byte-stuffing of one byte: `0x7E`/`0x7D` become `0x7D, b ^ 0x20`. -/
def stuffByte (b : ℕ) : List ℕ :=
  if b = 0x7E ∨ b = 0x7D then [0x7D, b ^^^ 0x20] else [b]

/-- `GDL90::prepare_payload`: given the message with two empty CRC slots
at the end, compute the CRC over the message, append it little-endian,
byte-stuff the whole span and wrap it in `0x7E` flag bytes. -/
def prepare_payload (buf : List ℕ) : List ℕ :=
  let len := buf.length - 2
  let msg := buf.take len
  let crc := crc16 msg
  0x7E :: ((msg ++ [crc % 256, crc >>> 8]).flatMap stuffByte) ++ [0x7E]

/-- A well-stuffed byte sequence: every `0x7D` starts an escape pair
encoding an original `0x7E` or `0x7D`, and no byte is a bare `0x7E` or
`0x7D`. -/
inductive Stuffed : List ℕ → Prop where
  | nil : Stuffed []
  | plain (b : ℕ) (rest : List ℕ) : b ≠ 0x7E → b ≠ 0x7D → Stuffed rest →
      Stuffed (b :: rest)
  | escaped (b : ℕ) (rest : List ℕ) : b = 0x7E ∨ b = 0x7D → Stuffed rest →
      Stuffed (0x7D :: (b ^^^ 0x20) :: rest)

/-- `latlon_to_gdl90`: degrees to 24-bit two's-complement big-endian
semicircles (resolution `180 / 2^23`). -/
def latlon_to_gdl90 (d : ℚ) : ℕ × ℕ × ℕ :=
  let wk : ℤ := rustRound (d / (180 / 8388608 : ℚ))
  let w : ℕ := (wk % 4294967296).toNat
  (((0xFF0000 : ℕ) &&& w) >>> 16, ((0x00FF00 : ℕ) &&& w) >>> 8, (0x0000FF : ℕ) &&& w)

/-- `alt_to_gdl90`: pressure altitude in feet to the 12-bit field;
`0xFFF` is the invalid sentinel. -/
def alt_to_gdl90 (a : ℚ) : ℕ :=
  if a < -1000 ∨ 101350 < a then 0xFFF
  else (rustRound ((a + 1000) / 25)).toNat &&& 0xFFF

/-! ### `GDL90::generate_traffic`

The 30-byte message buffer (28 message bytes plus two CRC slots) is
modelled as a function `ℕ → ℕ` initialized to zeroes; each source write
`buf[i] = v` (resp. `buf[i] |= v`) becomes `upd` (resp. `orUpd`).  The
stages below appear in exactly the order of the writes in the source. -/

/-- Byte 1 of the traffic message (address type). -/
def addrTypeByte : AddressType → ℕ
  | AddressType.ADSBICAO | AddressType.ADSRICAO => 0
  | AddressType.ADSBOther | AddressType.ADSROther => 1
  | AddressType.TISBICAO => 2
  | AddressType.TISBOther => 3
  | AddressType.Unknown => 3

/-- Byte 20 of the traffic message (ASCII address-source tag). -/
def addrSourceByte : AddressType → ℕ
  | AddressType.ADSBICAO | AddressType.ADSBOther => Char.toNat 'a'
  | AddressType.ADSRICAO | AddressType.ADSROther => Char.toNat 'r'
  | AddressType.TISBICAO | AddressType.TISBOther => Char.toNat 't'
  | AddressType.Unknown => Char.toNat 'x'

/-- Byte 19 of the traffic message (ASCII traffic-source tag). -/
def sourceByte : TrafficSource → ℕ
  | TrafficSource.UAT => Char.toNat 'u'
  | TrafficSource.ES => Char.toNat 'e'

/-- Message id, address type and the 24-bit address (bytes 0-4). -/
def bufInit (e : Target) : ℕ → ℕ :=
  upd (upd (upd (upd (upd (fun _ => 0) 0 0x14) 1 (addrTypeByte e.addr.2))
    2 ((0xFF0000 &&& e.addr.1) >>> 16)) 3 ((0x00FF00 &&& e.addr.1) >>> 8))
    4 (0x0000FF &&& e.addr.1)

/-- Fresh position: bytes 5-10 plus the NIC nibble of byte 13. -/
def bufLatLon (e : Target) (clock : ℕ) (f : ℕ → ℕ) : ℕ → ℕ :=
  match e.lat_lon with
  | some (ll, i) =>
    if (clock - i) / 1000 ≤ 6 then
      let l1 := latlon_to_gdl90 ll.1
      let l2 := latlon_to_gdl90 ll.2
      let f := upd (upd (upd f 5 l1.1) 6 l1.2.1) 7 l1.2.2
      let f := upd (upd (upd f 8 l2.1) 9 l2.2.1) 10 l2.2.2
      match e.nic with
      | some n => orUpd f 13 ((n <<< 4) &&& 0xF0)
      | none => f
    else f
  | none => f

/-- Altitude bytes 11-12: fresh altitude is corrected with `gnss_delta`
and encoded; an absent altitude gets the invalid sentinel. -/
def bufAltitude (e : Target) (clock : ℕ) (pres_alt_valid : Bool) (f : ℕ → ℕ) : ℕ → ℕ :=
  match e.altitude with
  | some (alt, typ, i) =>
    if (clock - i) / 1000 ≤ 6 then
      let corrected_alt :=
        if ¬ pres_alt_valid = true ∧ typ = AltitudeType.Baro then
          match e.gnss_delta with
          | some delta => alt + delta
          | none => alt
        else if pres_alt_valid = true ∧ typ = AltitudeType.GNSS then
          match e.gnss_delta with
          | some delta => alt - delta
          | none => alt
        else alt
      let a := alt_to_gdl90 (corrected_alt : ℚ)
      upd (upd f 11 ((a &&& 0xFF0) >>> 4)) 12 ((a &&& 0x00F) <<< 4)
    else f
  | none => upd (upd f 11 0xFF) 12 0xF0

/-- Heading-validity flag bits of byte 12 (fresh heading only). -/
def bufHeadingFlag (e : Target) (clock : ℕ) (f : ℕ → ℕ) : ℕ → ℕ :=
  match e.heading with
  | some (_, typ, i) =>
    if (clock - i) / 1000 ≤ 6 then
      match typ with
      | HeadingType.True => orUpd f 12 0x01
      | HeadingType.Mag => orUpd f 12 0x02
    else f
  | none => f

/-- Airborne bit of byte 12 (set unless known to be on the ground). -/
def bufAirborne (e : Target) (f : ℕ → ℕ) : ℕ → ℕ :=
  if e.on_ground ≠ some true then orUpd f 12 0x08 else f

/-- NACp nibble of byte 13. -/
def bufNacp (e : Target) (f : ℕ → ℕ) : ℕ → ℕ :=
  match e.nacp with
  | some na => orUpd f 13 (na &&& 0x0F)
  | none => f

/-- Velocity bytes default to the unavailable sentinel. -/
def bufVelocityDefault (f : ℕ → ℕ) : ℕ → ℕ := upd (upd f 14 0xFF) 15 0xF0

/-- Fresh speed overwrites bytes 14-15. -/
def bufSpeed (e : Target) (clock : ℕ) (f : ℕ → ℕ) : ℕ → ℕ :=
  match e.speed with
  | some (spd, _, i) =>
    if (clock - i) / 1000 ≤ 6 then
      upd (upd f 14 ((spd &&& 0xFF0) >>> 4)) 15 ((spd &&& 0x00F) <<< 4)
    else f
  | none => f

/-- The `i16` bit pattern of an integer. -/
def i16bits (v : ℤ) : ℕ := (v % 65536).toNat

/-- Vertical speed: fresh vs is encoded in 64 fpm units into bytes 15-16,
otherwise the no-vs flag is set. -/
def bufVs (e : Target) (clock : ℕ) (f : ℕ → ℕ) : ℕ → ℕ :=
  match e.vs with
  | some (vs, i) =>
    if (clock - i) / 1000 ≤ 6 then
      let v := i16bits (rustRound ((vs : ℚ) / 64))
      upd (orUpd f 15 ((v &&& 0xF00) >>> 8)) 16 (v &&& 0xFF)
    else orUpd f 15 0x08
  | none => orUpd f 15 0x08

/-- Byte 17: course over ground (written whenever a heading exists). -/
def bufCrs (e : Target) (f : ℕ → ℕ) : ℕ → ℕ :=
  match e.heading with
  | some (hdg, _, _) => upd f 17 (crs_to_gdl90 (hdg : ℚ))
  | none => f

/-- Byte 18: emitter category. -/
def bufCategory (e : Target) (f : ℕ → ℕ) : ℕ → ℕ :=
  match e.category with
  | some cat => upd f 18 cat
  | none => f

/-- Bytes 19-20: traffic-source and address-source ASCII tags. -/
def bufSourceBytes (e : Target) (f : ℕ → ℕ) : ℕ → ℕ :=
  upd (upd f 19 (sourceByte e.source)) 20 (addrSourceByte e.addr.2)

/-- `format!("\x7b:04\x7d", sq)`: decimal digits zero-padded to width 4. -/
def format04 (sq : ℕ) : List Char :=
  let s := Nat.toDigits 10 sq
  List.replicate (4 - s.length) '0' ++ s

/-- Bytes 21-26: up to six callsign characters, else the zero-padded
squawk digits into bytes 21-24. -/
def bufCallsign (e : Target) (f : ℕ → ℕ) : ℕ → ℕ :=
  match e.callsign with
  | some cs =>
    (cs.toList.take 6).enum.foldl (fun g ic => upd g (21 + ic.1) ic.2.toNat) f
  | none =>
    match e.squawk with
    | some sq =>
      let s := format04 sq
      upd (upd (upd (upd f 21 (s.getD 0 ' ').toNat) 22 (s.getD 1 ' ').toNat)
        23 (s.getD 2 ' ').toNat) 24 (s.getD 3 ' ').toNat
    | none => f

/-- Byte 27: emergency flag for squawks 7700/7600/7500. -/
def bufEmergency (e : Target) (f : ℕ → ℕ) : ℕ → ℕ :=
  match e.squawk with
  | some sq => if sq = 7700 ∨ sq = 7600 ∨ sq = 7500 then upd f 27 0x10 else f
  | none => f

/-- The complete 30-byte traffic-message buffer of
`GDL90::generate_traffic`, as a function from byte index to value. -/
def generate_traffic_buf (e : Target) (clock : ℕ) (pres_alt_valid : Bool) : ℕ → ℕ :=
  bufEmergency e (bufCallsign e (bufSourceBytes e (bufCategory e (bufCrs e
    (bufVs e clock (bufSpeed e clock (bufVelocityDefault (bufNacp e (bufAirborne e
      (bufHeadingFlag e clock (bufAltitude e clock pres_alt_valid
        (bufLatLon e clock (bufInit e)))))))))))))

/-- The traffic message as a byte list (28 message bytes plus the two
CRC slots). -/
def generate_traffic_msg (e : Target) (clock : ℕ) (pres_alt_valid : Bool) : List ℕ :=
  (List.range 30).map (generate_traffic_buf e clock pres_alt_valid)

/-- `GDL90::generate_traffic`: the framed traffic payload. -/
def generate_traffic (e : Target) (clock : ℕ) (pres_alt_valid : Bool) : Payload :=
  { queueable := false
    payload := prepare_payload (generate_traffic_msg e clock pres_alt_valid) }

/-! ## UDP transport (src/transport/udp.rs)

The queue dynamics of `UDP::run` on a tick with no new queueable ingress
and no immediate payloads: the queue holds payload sizes in bytes
(`UDP_MAX_SIZE = 1472`).  `to_drain = ceil((1/freq) * |queue|)` is
modelled as exact ceiling division; for the frequencies and queue lengths
of the claims the f32 computation of the source rounds to the same
value. -/

/-- The drain loop: pop `n` items, flushing the buffer when adding an
item would exceed the MTU.  Returns the remaining queue and the buffer
fill (the source's `unwrap` cannot fail because `to_drain ≤ |queue|`). -/
def drainN : ℕ → List ℕ → ℕ → List ℕ × ℕ
  | 0, q, b => (q, b)
  | _ + 1, [], b => ([], b)
  | n + 1, p :: q, b => drainN n q ((if b + p > 1472 then 0 else b) + p)

/-- The opportunistic fill: keep popping while the next item still fits
in the buffer. -/
def oppFill : List ℕ → ℕ → List ℕ × ℕ
  | [], b => ([], b)
  | p :: q, b => if b + p ≤ 1472 then oppFill q (b + p) else (p :: q, b)

/-- One tick of the queue dynamics of `UDP::run` with no new ingress:
drain `to_drain` items, then (if the buffer is nonempty) opportunistic
fill, then the buffer is flushed. -/
def udpTick (freq : ℕ) (q : List ℕ) : List ℕ :=
  let to_drain := (q.length + freq - 1) / freq
  let r := drainN to_drain q 0
  if r.2 ≠ 0 then (oppFill r.1 r.2).1 else r.1

/-- The queue after `n` ticks. -/
def udpIter (freq : ℕ) (q : List ℕ) : ℕ → List ℕ
  | 0 => q
  | n + 1 => udpTick freq (udpIter freq q n)

/-- Per-client liveness state from src/transport/udp.rs (`Client`),
socket handles omitted; times in monotonic ms. -/
structure Client where
  active : Bool
  last_reply : ℕ
  in_app : Bool
  last_refused : ℕ
  last_replay : ℕ

/-- The record inserted by `UDP::update_clients_list` for a newly alive
IP. -/
def newClient (clock : ℕ) : Client :=
  { active := true, last_reply := clock, in_app := false, last_refused := clock,
    last_replay := clock }

/-- The per-client state reconciliation of `UDP::run` (thresholds
`DEAD_THRESHOLD = 10`, `IN_APP_THRESHOLD = 5`); the returned `Bool` is
membership in `need_replay`. -/
def clientReconcile (now : ℕ) (c : Client) : Client × Bool :=
  let c1 := if 10 < (now - c.last_reply) / 1000 then { c with active := false }
            else if c.active = false then { c with active := true, last_refused := now }
            else c
  if c1.active then
    if (now - c1.last_refused) / 1000 < 5 then ({ c1 with in_app := false }, false)
    else if c1.in_app = false then ({ c1 with in_app := true }, true)
    else (c1, false)
  else (c1, false)

/-- One tick of a single client's liveness state in `UDP::run`:
`gotReply` tells whether this tick's ICMP read matched an echo reply from
the client; the returned `Bool` tells whether the inactive buffer was
replayed to it (`REPLAY_INTERVAL = 30` s). -/
def clientTick (now : ℕ) (gotReply : Bool) (c : Client) : Client × Bool :=
  let c0 := if gotReply then { c with last_reply := now } else c
  let r := clientReconcile now c0
  if r.2 then
    if (now - r.1.last_replay) / 1000 < 30 then (r.1, false)
    else ({ r.1 with last_replay := now }, true)
  else (r.1, false)

/-- Folding a sequence of ticks `(now, gotReply)` over a client. -/
def clientRun (c : Client) : List (ℕ × Bool) → Client
  | [] => c
  | (now, g) :: rest => clientRun (clientTick now g c).1 rest

/-- Target with a position (and NIC) used to witness the C9 theorem. -/
def exTarget9 : Target :=
  { exTarget4 with lat_lon := some ((1, 2), 0), nic := some 8 }

/-- Target with a present altitude stamped at instant 0, used to expose
the stale-altitude encoding. -/
def exTargetC1 : Target :=
  { exTarget4 with altitude := some (5000, AltitudeType.Baro, 0) }

/-! ## Theorems -/

theorem sub360_spec (c : ℚ) :
    (∃ k : ℕ, sub360 c = c - 360 * k) ∧ sub360 c ≤ 360 ∧
    (c ≤ 360 → sub360 c = c) ∧ (360 < c → 0 < sub360 c) := by
  induction c using sub360.induct with
  | case1 c h ih =>
    obtain ⟨⟨k, hk⟩, hle, heq, hpos⟩ := ih
    have hstep : sub360 c = sub360 (c - 360) := by
      rw [sub360]; exact dif_pos h
    refine ⟨⟨k + 1, ?_⟩, ?_, fun hc => absurd h (not_lt.mpr hc), fun _ => ?_⟩
    · rw [hstep, hk]; push_cast; ring
    · rw [hstep]; exact hle
    · rw [hstep]
      rcases le_or_lt (c - 360) 360 with h2 | h2
      · rw [heq h2]; linarith
      · exact hpos h2
  | case2 c h =>
    have hstep : sub360 c = c := by rw [sub360]; exact dif_neg h
    exact ⟨⟨0, by rw [hstep]; push_cast; ring⟩, by rw [hstep]; linarith [not_lt.mp h],
      fun _ => hstep, fun hc => absurd hc h⟩

theorem add360_spec (c : ℚ) :
    (∃ k : ℕ, add360 c = c + 360 * k) ∧ (0 ≤ c → add360 c = c) ∧
    (c < 0 → 0 ≤ add360 c ∧ add360 c < 360) := by
  induction c using add360.induct with
  | case1 c h ih =>
    obtain ⟨⟨k, hk⟩, heq, hneg⟩ := ih
    have hstep : add360 c = add360 (c + 360) := by
      rw [add360]; exact dif_pos h
    refine ⟨⟨k + 1, ?_⟩, fun hc => absurd hc (not_le.mpr h), fun _ => ?_⟩
    · rw [hstep, hk]; push_cast; ring
    · rw [hstep]
      rcases le_or_lt 0 (c + 360) with h2 | h2
      · rw [heq h2]; constructor <;> linarith
      · exact hneg h2
  | case2 c h =>
    have hstep : add360 c = c := by rw [add360]; exact dif_neg h
    exact ⟨⟨0, by rw [hstep]; push_cast; ring⟩, fun _ => hstep,
      fun hc => absurd hc (not_lt.mpr (not_lt.mp h))⟩

/-- The normalized course `add360 (sub360 c)` lies in `[0, 360]` and
differs from `c` by an integer multiple of 360. -/
theorem norm_course_spec (c : ℚ) :
    0 ≤ add360 (sub360 c) ∧ add360 (sub360 c) ≤ 360 ∧
    ∃ j : ℤ, add360 (sub360 c) = c + 360 * j := by
  obtain ⟨⟨k1, hk1⟩, hle, -, -⟩ := sub360_spec c
  obtain ⟨⟨k2, hk2⟩, heq, hneg⟩ := add360_spec (sub360 c)
  refine ⟨?_, ?_, ⟨(k2 : ℤ) - k1, by rw [hk2, hk1]; push_cast; ring⟩⟩
  · rcases le_or_lt 0 (sub360 c) with h | h
    · rw [heq h]; exact h
    · exact (hneg h).1
  · rcases le_or_lt 0 (sub360 c) with h | h
    · rw [heq h]; exact hle
    · exact le_of_lt (hneg h).2

/-- The residue `c - 360⌊c/360⌋` is the normalization of `c` into
`[0, 360)`. -/
theorem course_residue_mem (c : ℚ) :
    0 ≤ c - 360 * ⌊c / 360⌋ ∧ c - 360 * ⌊c / 360⌋ < 360 := by
  have h1 := Int.fract_nonneg (c / 360)
  have h2 := Int.fract_lt_one (c / 360)
  have he : c - 360 * ⌊c / 360⌋ = 360 * Int.fract (c / 360) := by
    rw [Int.fract]; field_simp
  constructor <;> rw [he] <;> nlinarith

theorem crs_to_gdl90_eq_spec (c : ℚ) : crs_to_gdl90 c = crsSpec c := by
  obtain ⟨h0, h1, j, hj⟩ := norm_course_spec c
  set n := add360 (sub360 c) with hn
  rcases lt_or_eq_of_le h1 with hlt | h360
  · -- the normalized course lies in [0, 360): it coincides with the residue
    have hres : c - 360 * ⌊c / 360⌋ = n := by
      have hfl : ⌊c / 360⌋ = -j := by
        have hquot : c / 360 = n / 360 - j := by rw [hj]; ring
        rw [hquot, Int.floor_sub_int, Int.floor_eq_zero_iff.mpr ⟨by positivity, by
          rw [div_lt_one (by norm_num : (0:ℚ) < 360)]; exact hlt⟩]
        ring
      rw [hfl, hj]; push_cast; ring
    have hfloor_lt : ⌊n / (360 / 256 : ℚ)⌋ < 256 := by
      rw [Int.floor_lt]
      rw [div_lt_iff (by norm_num : (0:ℚ) < 360 / 256)]
      push_cast; linarith
    have hfloor_nonneg : 0 ≤ ⌊n / (360 / 256 : ℚ)⌋ := by
      apply Int.floor_nonneg.mpr; positivity
    rw [crs_to_gdl90, crsSpec, hres, ← hn, Nat.mod_eq_of_lt (by omega)]
  · -- the normalized course is exactly 360: both sides give 0
    have hres : c - 360 * ⌊c / 360⌋ = 0 := by
      have hc : c = 360 * (1 - (j : ℚ)) := by
        rw [h360] at hj; linarith
      have hfl : ⌊c / 360⌋ = 1 - j := by
        rw [hc, show (360 : ℚ) * (1 - (j : ℚ)) / 360 = ((1 - j : ℤ) : ℚ) by
          push_cast; ring]
        exact Int.floor_intCast _
      rw [hfl, hc]; push_cast; ring
    rw [crs_to_gdl90, crsSpec, hres, ← hn, h360]
    norm_num
    decide

theorem succ_mod_aux (n t : ℕ) : (n + 1) % t = (n % t + 1) % t := by
  conv_lhs => rw [← Nat.mod_add_div n t]
  rw [Nat.add_right_comm, Nat.add_mul_mod_self_left]

theorem run_every_counter_eq (t n : ℕ) : run_every_counter t n = n % max 1 t := by
  induction n with
  | zero => simp [run_every_counter]
  | succ n ih =>
    rw [run_every_counter, ih]
    simp only [run_every_step]
    rcases Nat.lt_or_ge t 1 with ht | ht
    · interval_cases t
      simp [Nat.mod_one]
    · have hmax : max 1 t = t := by omega
      have hlt : n % t < t := Nat.mod_lt _ (by omega)
      rw [hmax, succ_mod_aux n t]
      by_cases hc : t ≤ n % t + 1
      · have he : n % t + 1 = t := by omega
        rw [if_pos hc, he, Nat.mod_self]
      · rw [if_neg hc, Nat.mod_eq_of_lt (show n % t + 1 < t by omega)]

theorem run_every_fires_iff (t n : ℕ) :
    run_every_fires t n = true ↔ (n + 1) % max 1 t = 0 := by
  rw [run_every_fires, run_every_counter_eq]
  simp only [run_every_step]
  rcases Nat.lt_or_ge t 1 with ht | ht
  · interval_cases t
    simp [Nat.mod_one]
  · have hmax : max 1 t = t := by omega
    have hlt : n % t < t := Nat.mod_lt _ (by omega)
    rw [hmax, succ_mod_aux n t]
    by_cases hc : t ≤ n % t + 1
    · have he : n % t + 1 = t := by omega
      rw [if_pos hc, he, Nat.mod_self]
      simp
    · rw [if_neg hc, Nat.mod_eq_of_lt (show n % t + 1 < t by omega)]
      simp

theorem upd_same {f : ℕ → ℕ} {i v : ℕ} : upd f i v i = v := by
  simp [upd]

theorem upd_ne {f : ℕ → ℕ} {i v j : ℕ} (h : j ≠ i) : upd f i v j = f j := by
  simp [upd, h]

theorem orUpd_same {f : ℕ → ℕ} {i v : ℕ} : orUpd f i v i = f i ||| v := by
  simp [orUpd, upd]

theorem orUpd_ne {f : ℕ → ℕ} {i v j : ℕ} (h : j ≠ i) : orUpd f i v j = f j := by
  simp [orUpd, upd, h]

/-- Bits masked to zero in `x` do not affect `(a ||| x) &&& m`. -/
theorem or_and_eq (a x m : ℕ) (h : x &&& m = 0) : (a ||| x) &&& m = a &&& m := by
  apply Nat.eq_of_testBit_eq
  intro i
  have hxm : (x.testBit i && m.testBit i) = false := by
    have hh := congrArg (fun y => y.testBit i) h
    simp only [Nat.testBit_and, Nat.zero_testBit] at hh
    exact hh
  simp only [Nat.testBit_and, Nat.testBit_or]
  cases hA : a.testBit i <;> cases hX : x.testBit i <;> cases hM : m.testBit i <;>
    simp_all

theorem lt16_and_240 (x : ℕ) (h : x < 16) : x &&& 240 = 0 := by
  interval_cases x <;> rfl

theorem and_240_and_240 (a : ℕ) : (a &&& 240) &&& 240 = a &&& 240 := by
  rw [Nat.and_assoc]
  rfl

theorem or_and_self_right (a x : ℕ) : (a ||| x) &&& x = x := by
  apply Nat.eq_of_testBit_eq
  intro i
  simp only [Nat.testBit_and, Nat.testBit_or]
  cases hA : a.testBit i <;> cases hX : x.testBit i <;> simp

theorem shiftLeft4_and_3 (y : ℕ) : (y <<< 4) &&& 3 = 0 := by
  apply Nat.eq_of_testBit_eq
  intro i
  simp only [Nat.testBit_and, Nat.zero_testBit]
  rcases Nat.lt_or_ge i 2 with h | h
  · have h4 : ¬ 4 ≤ i := by omega
    simp [Nat.testBit_shiftLeft, h4]
  · have h3 : Nat.testBit 3 i = false := by
      apply Nat.testBit_lt_two_pow
      calc (3 : ℕ) < 2 ^ 2 := by norm_num
        _ ≤ 2 ^ i := Nat.pow_le_pow_right (by norm_num) h
    simp [h3]

/-! ### Per-stage evaluation lemmas for the traffic message buffer -/

theorem bufInit_out (e : Target) (j : ℕ) (h : 4 < j) : bufInit e j = 0 := by
  rw [bufInit, upd_ne, upd_ne, upd_ne, upd_ne, upd_ne] <;> omega

theorem bufLatLon_out (e : Target) (clock : ℕ) (f : ℕ → ℕ) (j : ℕ)
    (h : j < 5 ∨ (10 < j ∧ j ≠ 13)) : bufLatLon e clock f j = f j := by
  rcases hll : e.lat_lon with - | ⟨ll, i⟩
  · simp [bufLatLon, hll]
  · simp only [bufLatLon, hll]
    split
    · rcases hn : e.nic with - | n
      · simp only [hn]
        rw [upd_ne, upd_ne, upd_ne, upd_ne, upd_ne, upd_ne] <;> omega
      · simp only [hn]
        rw [orUpd_ne, upd_ne, upd_ne, upd_ne, upd_ne, upd_ne, upd_ne] <;> omega
    · rfl

theorem bufLatLon_stale (e : Target) (clock : ℕ) (f : ℕ → ℕ)
    (h : e.lat_lon = none ∨
      ∃ ll i, e.lat_lon = some (ll, i) ∧ ¬ (clock - i) / 1000 ≤ 6) :
    bufLatLon e clock f = f := by
  rcases h with h | ⟨ll, i, h, hstale⟩
  · simp [bufLatLon, h]
  · simp [bufLatLon, h, hstale]

theorem bufLatLon_fresh_13 (e : Target) (clock : ℕ) (f : ℕ → ℕ) (ll : ℚ × ℚ)
    (i n : ℕ) (h : e.lat_lon = some (ll, i)) (hfresh : (clock - i) / 1000 ≤ 6)
    (hn : e.nic = some n) :
    bufLatLon e clock f 13 = f 13 ||| ((n <<< 4) &&& 0xF0) := by
  simp only [bufLatLon, h, if_pos hfresh, hn]
  rw [orUpd_same, upd_ne, upd_ne, upd_ne, upd_ne, upd_ne, upd_ne] <;> omega

theorem bufAltitude_out (e : Target) (clock : ℕ) (p : Bool) (f : ℕ → ℕ) (j : ℕ)
    (h11 : j ≠ 11) (h12 : j ≠ 12) : bufAltitude e clock p f j = f j := by
  rcases halt : e.altitude with - | ⟨alt, typ, i⟩
  · simp only [bufAltitude, halt]
    rw [upd_ne, upd_ne] <;> omega
  · simp only [bufAltitude, halt]
    split
    · rw [upd_ne, upd_ne] <;> omega
    · rfl

theorem bufAltitude_none (e : Target) (clock : ℕ) (p : Bool) (f : ℕ → ℕ)
    (h : e.altitude = none) :
    bufAltitude e clock p f 11 = 0xFF ∧ bufAltitude e clock p f 12 = 0xF0 := by
  constructor <;> simp only [bufAltitude, h]
  · rw [upd_ne (by omega), upd_same]
  · rw [upd_same]

theorem bufAltitude_stale (e : Target) (clock : ℕ) (p : Bool) (f : ℕ → ℕ)
    (alt : ℤ) (typ : AltitudeType) (i : ℕ) (h : e.altitude = some (alt, typ, i))
    (hstale : ¬ (clock - i) / 1000 ≤ 6) : bufAltitude e clock p f = f := by
  simp [bufAltitude, h, hstale]

theorem bufHeadingFlag_out (e : Target) (clock : ℕ) (f : ℕ → ℕ) (j : ℕ)
    (h : j ≠ 12) : bufHeadingFlag e clock f j = f j := by
  rcases hh : e.heading with - | ⟨hdg, typ, i⟩
  · simp [bufHeadingFlag, hh]
  · simp only [bufHeadingFlag, hh]
    split
    · cases typ <;> exact orUpd_ne h
    · rfl

theorem bufHeadingFlag_stale (e : Target) (clock : ℕ) (f : ℕ → ℕ)
    (h : e.heading = none ∨
      ∃ hdg typ i, e.heading = some (hdg, typ, i) ∧ ¬ (clock - i) / 1000 ≤ 6) :
    bufHeadingFlag e clock f = f := by
  rcases h with h | ⟨hdg, typ, i, h, hstale⟩
  · simp [bufHeadingFlag, h]
  · simp [bufHeadingFlag, h, hstale]

theorem bufHeadingFlag_12 (e : Target) (clock : ℕ) (f : ℕ → ℕ) :
    ∃ x, x < 16 ∧ bufHeadingFlag e clock f 12 = f 12 ||| x := by
  rcases hh : e.heading with - | ⟨hdg, typ, i⟩
  · exact ⟨0, by omega, by simp [bufHeadingFlag, hh]⟩
  · simp only [bufHeadingFlag, hh]
    split
    · cases typ
      · exact ⟨1, by omega, orUpd_same⟩
      · exact ⟨2, by omega, orUpd_same⟩
    · exact ⟨0, by omega, by simp⟩

/-- The altitude stage either leaves byte 12 alone or writes a value with
clear low two bits. -/
theorem bufAltitude_12_and3 (e : Target) (clock : ℕ) (p : Bool) (f : ℕ → ℕ) :
    bufAltitude e clock p f 12 &&& 3 = 0 ∨ bufAltitude e clock p f 12 = f 12 := by
  rcases halt : e.altitude with - | ⟨alt, typ, i⟩
  · left
    simp only [bufAltitude, halt]
    rw [upd_same]
    rfl
  · simp only [bufAltitude, halt]
    split
    · left
      rw [upd_same]
      exact shiftLeft4_and_3 _
    · right
      rfl

theorem bufAirborne_out (e : Target) (f : ℕ → ℕ) (j : ℕ) (h : j ≠ 12) :
    bufAirborne e f j = f j := by
  rw [bufAirborne]
  split
  · rw [orUpd_ne h]
  · rfl

theorem bufAirborne_12 (e : Target) (f : ℕ → ℕ) :
    ∃ x, (x = 0 ∨ x = 8) ∧ bufAirborne e f 12 = f 12 ||| x := by
  rw [bufAirborne]
  split
  · exact ⟨8, Or.inr rfl, orUpd_same⟩
  · exact ⟨0, Or.inl rfl, by simp⟩

theorem bufNacp_out (e : Target) (f : ℕ → ℕ) (j : ℕ) (h : j ≠ 13) :
    bufNacp e f j = f j := by
  rcases hn : e.nacp with - | na
  · simp [bufNacp, hn]
  · simp only [bufNacp, hn]
    rw [orUpd_ne h]

theorem bufNacp_13 (e : Target) (f : ℕ → ℕ) :
    ∃ x, x < 16 ∧ bufNacp e f 13 = f 13 ||| x := by
  rcases hn : e.nacp with - | na
  · exact ⟨0, by omega, by simp [bufNacp, hn]⟩
  · refine ⟨na &&& 0x0F, ?_, ?_⟩
    · have hle : na &&& 15 ≤ 15 := Nat.and_le_right
      omega
    · simp only [bufNacp, hn]
      exact orUpd_same

theorem bufVelocityDefault_out (f : ℕ → ℕ) (j : ℕ) (h14 : j ≠ 14) (h15 : j ≠ 15) :
    bufVelocityDefault f j = f j := by
  rw [bufVelocityDefault, upd_ne h15, upd_ne h14]

theorem bufVelocityDefault_at (f : ℕ → ℕ) :
    bufVelocityDefault f 14 = 0xFF ∧ bufVelocityDefault f 15 = 0xF0 := by
  constructor
  · rw [bufVelocityDefault, upd_ne (by omega), upd_same]
  · rw [bufVelocityDefault, upd_same]

theorem bufSpeed_out (e : Target) (clock : ℕ) (f : ℕ → ℕ) (j : ℕ)
    (h14 : j ≠ 14) (h15 : j ≠ 15) : bufSpeed e clock f j = f j := by
  rcases hs : e.speed with - | ⟨spd, typ, i⟩
  · simp [bufSpeed, hs]
  · simp only [bufSpeed, hs]
    split
    · rw [upd_ne h15, upd_ne h14]
    · rfl

theorem bufSpeed_stale (e : Target) (clock : ℕ) (f : ℕ → ℕ)
    (h : e.speed = none ∨
      ∃ spd typ i, e.speed = some (spd, typ, i) ∧ ¬ (clock - i) / 1000 ≤ 6) :
    bufSpeed e clock f = f := by
  rcases h with h | ⟨spd, typ, i, h, hstale⟩
  · simp [bufSpeed, h]
  · simp [bufSpeed, h, hstale]

theorem bufVs_out (e : Target) (clock : ℕ) (f : ℕ → ℕ) (j : ℕ)
    (h15 : j ≠ 15) (h16 : j ≠ 16) : bufVs e clock f j = f j := by
  rcases hv : e.vs with - | ⟨vs, i⟩
  · simp only [bufVs, hv]
    rw [orUpd_ne h15]
  · simp only [bufVs, hv]
    split
    · rw [upd_ne h16, orUpd_ne h15]
    · rw [orUpd_ne h15]

theorem bufVs_15 (e : Target) (clock : ℕ) (f : ℕ → ℕ) :
    ∃ x, x < 16 ∧ bufVs e clock f 15 = f 15 ||| x := by
  rcases hv : e.vs with - | ⟨vs, i⟩
  · exact ⟨8, by omega, by simp only [bufVs, hv]; exact orUpd_same⟩
  · simp only [bufVs, hv]
    split
    · refine ⟨(i16bits (rustRound ((vs : ℚ) / 64)) &&& 0xF00) >>> 8, ?_, ?_⟩
      · have hle : i16bits (rustRound ((vs : ℚ) / 64)) &&& 0xF00 ≤ 0xF00 :=
          Nat.and_le_right
        have hdiv : (i16bits (rustRound ((vs : ℚ) / 64)) &&& 0xF00) >>> 8 =
            (i16bits (rustRound ((vs : ℚ) / 64)) &&& 0xF00) / 256 := by
          rw [Nat.shiftRight_eq_div_pow]
        omega
      · rw [upd_ne (by omega), orUpd_same]
    · exact ⟨8, by omega, orUpd_same⟩

theorem bufVs_stale_15 (e : Target) (clock : ℕ) (f : ℕ → ℕ)
    (h : e.vs = none ∨ ∃ v i, e.vs = some (v, i) ∧ ¬ (clock - i) / 1000 ≤ 6) :
    bufVs e clock f 15 = f 15 ||| 8 := by
  rcases h with h | ⟨v, i, h, hstale⟩
  · simp only [bufVs, h]
    exact orUpd_same
  · simp only [bufVs, h, if_neg hstale]
    exact orUpd_same

theorem bufCrs_out (e : Target) (f : ℕ → ℕ) (j : ℕ) (h : j ≠ 17) :
    bufCrs e f j = f j := by
  rcases hh : e.heading with - | ⟨hdg, typ, i⟩
  · simp [bufCrs, hh]
  · simp only [bufCrs, hh]
    rw [upd_ne h]

theorem bufCategory_out (e : Target) (f : ℕ → ℕ) (j : ℕ) (h : j ≠ 18) :
    bufCategory e f j = f j := by
  rcases hc : e.category with - | c
  · simp [bufCategory, hc]
  · simp only [bufCategory, hc]
    rw [upd_ne h]

theorem bufSourceBytes_out (e : Target) (f : ℕ → ℕ) (j : ℕ)
    (h19 : j ≠ 19) (h20 : j ≠ 20) : bufSourceBytes e f j = f j := by
  rw [bufSourceBytes, upd_ne h20, upd_ne h19]

theorem foldl_upd_lower (l : List (ℕ × Char)) (g : ℕ → ℕ) (j : ℕ) (h : j < 21) :
    (l.foldl (fun g ic => upd g (21 + ic.1) ic.2.toNat) g) j = g j := by
  induction l generalizing g with
  | nil => rfl
  | cons a l ih =>
    rw [List.foldl_cons, ih]
    exact upd_ne (by omega)

theorem bufCallsign_out (e : Target) (f : ℕ → ℕ) (j : ℕ) (h : j < 21) :
    bufCallsign e f j = f j := by
  rcases hc : e.callsign with - | cs
  · rcases hs : e.squawk with - | sq
    · simp [bufCallsign, hc, hs]
    · simp only [bufCallsign, hc, hs]
      rw [upd_ne, upd_ne, upd_ne, upd_ne] <;> omega
  · simp only [bufCallsign, hc]
    exact foldl_upd_lower _ _ _ h

theorem bufEmergency_out (e : Target) (f : ℕ → ℕ) (j : ℕ) (h : j ≠ 27) :
    bufEmergency e f j = f j := by
  rcases hs : e.squawk with - | sq
  · simp [bufEmergency, hs]
  · simp only [bufEmergency, hs]
    split
    · rw [upd_ne h]
    · rfl

/-- Below byte 17 the traffic buffer is determined by the stages up to
the vertical-speed write. -/
theorem gtb_eval_lt17 (e : Target) (clock : ℕ) (p : Bool) (j : ℕ) (h : j < 17) :
    generate_traffic_buf e clock p j =
      bufVs e clock (bufSpeed e clock (bufVelocityDefault (bufNacp e (bufAirborne e
        (bufHeadingFlag e clock (bufAltitude e clock p
          (bufLatLon e clock (bufInit e)))))))) j := by
  rw [generate_traffic_buf, bufEmergency_out, bufCallsign_out, bufSourceBytes_out,
    bufCategory_out, bufCrs_out] <;> omega

theorem icao_to_tail_total (icao : ℕ) (h1 : 0xA00001 ≤ icao) (h2 : icao ≤ 0xADF7C7) :
    (icao_to_tail icao).isSome = true := by
  simp only [icao_to_tail]
  rw [if_pos (⟨h1, by omega⟩ : 0xA00001 ≤ icao ∧ icao ≤ 0xAFFFFF),
    if_neg (by omega : ¬ 0xADF7C7 < icao),
    if_neg (by omega : ¬ 915399 < icao - 0xA00001)]
  repeat' split
  all_goals rfl

theorem icao_to_tail_us_mil (icao : ℕ) (h1 : 0xADF7C7 < icao) (h2 : icao ≤ 0xAFFFFF) :
    icao_to_tail icao = some "US-MIL" := by
  simp only [icao_to_tail]
  rw [if_pos (⟨by omega, h2⟩ : 0xA00001 ≤ icao ∧ icao ≤ 0xAFFFFF), if_pos h1]

theorem icao_to_tail_none (icao : ℕ) (h : icao < 0xA00001 ∨ 0xAFFFFF < icao) :
    icao_to_tail icao = none := by
  simp only [icao_to_tail]
  rw [if_neg (by omega : ¬ (0xA00001 ≤ icao ∧ icao ≤ 0xAFFFFF))]

theorem drainN_1472 (n : ℕ) : ∀ (q : List ℕ) (b : ℕ), (∀ s ∈ q, s = 1472) →
    n ≤ q.length → drainN n q b = (q.drop n, if n = 0 then b else 1472) := by
  induction n with
  | zero =>
    intro q b hall hlen
    simp [drainN]
  | succ n ih =>
    intro q b hall hlen
    match q with
    | [] => simp at hlen
    | p :: q =>
      have hp : p = 1472 := hall p (List.mem_cons_self p q)
      subst hp
      have hb : (if b + 1472 > 1472 then 0 else b) + 1472 = 1472 := by
        split <;> omega
      simp only [drainN]
      rw [hb, ih q 1472 (fun s hs => hall s (List.mem_cons_of_mem _ hs))
        (by simpa using hlen)]
      simp

theorem oppFill_1472 (q : List ℕ) (hall : ∀ s ∈ q, s = 1472) :
    oppFill q 1472 = (q, 1472) := by
  cases q with
  | nil => rfl
  | cons p q =>
    have hp : p = 1472 := hall p (List.mem_cons_self p q)
    subst hp
    simp only [oppFill]
    rw [if_neg (by omega)]

theorem udpTick_1472 (freq : ℕ) (q : List ℕ) (hf : 0 < freq)
    (hall : ∀ s ∈ q, s = 1472) :
    udpTick freq q = q.drop ((q.length + freq - 1) / freq) := by
  have htd : (q.length + freq - 1) / freq ≤ q.length := by
    rw [Nat.div_le_iff_le_mul_add_pred hf]
    have h := Nat.le_mul_of_pos_left q.length hf
    omega
  simp only [udpTick]
  rw [drainN_1472 _ q 0 hall htd]
  by_cases h0 : (q.length + freq - 1) / freq = 0
  · simp [h0]
  · rw [if_neg h0]
    simp only [if_pos (by omega : (1472 : ℕ) ≠ 0)]
    rw [oppFill_1472 _ (fun s hs => hall s (List.drop_subset _ _ hs))]

theorem clientReconcile_last_replay (now : ℕ) (c : Client) :
    (clientReconcile now c).1.last_replay = c.last_replay := by
  simp only [clientReconcile]
  repeat' split
  all_goals rfl

theorem clientTick_last_replay_ge (t0 now : ℕ) (g : Bool) (c : Client)
    (hc : t0 ≤ c.last_replay) (hnow : t0 ≤ now) :
    t0 ≤ (clientTick now g c).1.last_replay := by
  have hc0 : ∀ c0 : Client, c0.last_replay = c.last_replay →
      t0 ≤ (if (clientReconcile now c0).2 = true then
              (if (now - (clientReconcile now c0).1.last_replay) / 1000 < 30
               then ((clientReconcile now c0).1, false)
               else ({ (clientReconcile now c0).1 with last_replay := now }, true))
            else ((clientReconcile now c0).1, false)).1.last_replay := by
    intro c0 h0
    have hr := clientReconcile_last_replay now c0
    split
    · split
      · show t0 ≤ (clientReconcile now c0).1.last_replay
        omega
      · exact hnow
    · show t0 ≤ (clientReconcile now c0).1.last_replay
      omega
  simp only [clientTick]
  split
  · exact hc0 { c with last_reply := now } rfl
  · exact hc0 c rfl

theorem clientTick_replay_bound (now : ℕ) (g : Bool) (c : Client)
    (h : (clientTick now g c).2 = true) : c.last_replay + 30000 ≤ now := by
  have hc0 : ∀ c0 : Client, c0.last_replay = c.last_replay →
      (if (clientReconcile now c0).2 = true then
         (if (now - (clientReconcile now c0).1.last_replay) / 1000 < 30
          then ((clientReconcile now c0).1, false)
          else ({ (clientReconcile now c0).1 with last_replay := now }, true))
       else ((clientReconcile now c0).1, false)).2 = true →
      c.last_replay + 30000 ≤ now := by
    intro c0 h0 hrep
    have hr := clientReconcile_last_replay now c0
    split at hrep
    · split at hrep
      · simp at hrep
      · rename_i hge
        omega
    · simp at hrep
  simp only [clientTick] at h
  split at h
  · exact hc0 { c with last_reply := now } rfl h
  · exact hc0 c rfl h

theorem clientRun_last_replay_ge (t0 : ℕ) (ticks : List (ℕ × Bool))
    (h : ∀ p ∈ ticks, t0 ≤ p.1) :
    ∀ c : Client, t0 ≤ c.last_replay → t0 ≤ (clientRun c ticks).last_replay := by
  induction ticks with
  | nil =>
    intro c hc
    exact hc
  | cons p rest ih =>
    intro c hc
    rcases p with ⟨now, g⟩
    simp only [clientRun]
    exact ih (fun q hq => h q (List.mem_cons_of_mem _ hq)) _
      (clientTick_last_replay_ge t0 now g c hc (h (now, g) (List.mem_cons_self _ _)))

/-! ## Claim theorems -/

/-- C2: `crs_to_gdl90` normalizes its input course to the interval
`[0, 360)` and returns `floor(c / (360/256))` as one byte (`crsSpec`); in
particular `crs_to_gdl90(0) = 0x00`, `crs_to_gdl90(180) = 0x80`,
`crs_to_gdl90(266) = 0xBD`, `crs_to_gdl90(359) = 0xFF` and
`crs_to_gdl90(360) = 0x00`. -/
theorem c2_course_encoding :
    (∀ c : ℚ, crs_to_gdl90 c = crsSpec c) ∧
    (∀ c : ℚ, 0 ≤ c - 360 * ⌊c / 360⌋ ∧ c - 360 * ⌊c / 360⌋ < 360) ∧
    crs_to_gdl90 0 = 0x00 ∧ crs_to_gdl90 180 = 0x80 ∧ crs_to_gdl90 266 = 0xBD ∧
    crs_to_gdl90 359 = 0xFF ∧ crs_to_gdl90 360 = 0x00 := by
  refine ⟨crs_to_gdl90_eq_spec, course_residue_mem, ?_, ?_, ?_, ?_, ?_⟩ <;>
    rw [crs_to_gdl90_eq_spec] <;> norm_num [crsSpec] <;> rfl

/-- C5: `icao_to_tail` returns a tail string on all of
`[0xA00001, 0xADF7C7]`, returns `"US-MIL"` on `(0xADF7C7, 0xAFFFFF]`, and
`none` elsewhere; the seven concrete values from the spec hold. -/
theorem c5_icao_to_tail :
    (∀ icao : ℕ, 0xA00001 ≤ icao → icao ≤ 0xADF7C7 → (icao_to_tail icao).isSome = true) ∧
    (∀ icao : ℕ, 0xADF7C7 < icao → icao ≤ 0xAFFFFF → icao_to_tail icao = some "US-MIL") ∧
    (∀ icao : ℕ, icao < 0xA00001 ∨ 0xAFFFFF < icao → icao_to_tail icao = none) ∧
    icao_to_tail 0xAA5694 = some "N76508" ∧ icao_to_tail 0xA29CBF = some "N268AK" ∧
    icao_to_tail 0xA66A54 = some "N512R" ∧ icao_to_tail 0xA00001 = some "N1" ∧
    icao_to_tail 0xA029D9 = some "N11" ∧ icao_to_tail 0xA18FA9 = some "N20" ∧
    icao_to_tail 0x780A2C = none :=
  ⟨icao_to_tail_total, icao_to_tail_us_mil, icao_to_tail_none,
   by rfl, by rfl, by rfl, by rfl, by rfl, by rfl, by rfl⟩

/-- C5 witness: the universally quantified parts of `c5_icao_to_tail`
applied at concrete addresses. -/
theorem c5_icao_to_tail_witness :
    (icao_to_tail 0xA12345).isSome = true ∧ icao_to_tail 0xAE0000 = some "US-MIL" ∧
    icao_to_tail 0x000001 = none :=
  ⟨c5_icao_to_tail.1 0xA12345 (by norm_num) (by norm_num),
   c5_icao_to_tail.2.1 0xAE0000 (by norm_num) (by norm_num),
   c5_icao_to_tail.2.2.1 0x000001 (Or.inl (by norm_num))⟩

/-- C4: when the existing target's address type is ADSB* and the incoming
report's is not, the ADS-B lockout skips the update entirely (every field
unchanged) while the clock is within 2 s of `last_seen`, and applies the
normal merge once 2 s or more have elapsed. -/
theorem c4_adsb_lockout (clock : ℕ) (trfc : Target) (t : TrafficData)
    (h1 : trfc.addr.2 = AddressType.ADSBICAO ∨ trfc.addr.2 = AddressType.ADSBOther)
    (h2 : t.addr.2 ≠ AddressType.ADSBICAO) (h3 : t.addr.2 ≠ AddressType.ADSBOther) :
    ((clock - trfc.last_seen) / 1000 < 2 → updateTarget clock trfc t = trfc) ∧
    (2 ≤ (clock - trfc.last_seen) / 1000 →
      updateTarget clock trfc t = mergeTarget clock trfc t) := by
  constructor
  · intro hfresh
    rw [updateTarget, if_pos ⟨h1, ⟨h2, h3⟩, hfresh⟩]
  · intro hstale
    rw [updateTarget, if_neg (by omega : ¬ _)]

/-- C4 witness: ADS-B at t = 0 ms locks out an ADS-R update at 1000 ms;
the same update at 2000 ms is merged. -/
theorem c4_adsb_lockout_witness :
    updateTarget 1000 exTarget4 exReport4 = exTarget4 ∧
    updateTarget 2000 exTarget4 exReport4 = mergeTarget 2000 exTarget4 exReport4 :=
  ⟨(c4_adsb_lockout 1000 exTarget4 exReport4 (Or.inl rfl) (by decide) (by decide)).1
      (by norm_num [exTarget4]),
   (c4_adsb_lockout 2000 exTarget4 exReport4 (Or.inl rfl) (by decide) (by decide)).2
      (by norm_num [exTarget4])⟩

/-- C6: on every GNSS TimeFix carrying a fix, the ownship processor sets
`nic = 9` when horizontal accuracy is present and `nic = 0` otherwise,
and sets `nacp` from the accuracy (mm) converted to meters by the
stepwise table `<3 → 11, <10 → 10, <30 → 9, <92.6 → 8, <185.2 → 7,
<555.6 → 6, else 0`. -/
theorem c6_ownship_nic_nacp (s : Ownship) (f : Fix) :
    (f.lat_lon.2 = none →
      (ownship_timefix s f).nic = 0 ∧ (ownship_timefix s f).nacp = 0) ∧
    (∀ a : ℕ, f.lat_lon.2 = some a →
      (ownship_timefix s f).nic = 9 ∧
      (ownship_timefix s f).nacp =
        (if (a : ℚ) / 1000 < 3 then 11 else if (a : ℚ) / 1000 < 10 then 10
         else if (a : ℚ) / 1000 < 30 then 9 else if (a : ℚ) / 1000 < 92.6 then 8
         else if (a : ℚ) / 1000 < 185.2 then 7
         else if (a : ℚ) / 1000 < 555.6 then 6 else 0)) := by
  constructor
  · intro h
    simp [ownship_timefix, h]
  · intro a h
    simp [ownship_timefix, h]

/-- C6 witness: the theorem applied to a concrete fix with 5 m horizontal
accuracy gives `nic = 9`, `nacp = 10`. -/
theorem c6_ownship_nic_nacp_witness :
    (ownship_timefix ownshipDefault exFix).nic = 9 ∧
    (ownship_timefix ownshipDefault exFix).nacp = 10 := by
  have h := (c6_ownship_nic_nacp ownshipDefault exFix).2 5000 rfl
  refine ⟨h.1, ?_⟩
  rw [h.2]
  norm_num

theorem stuffByte_no7E (b : ℕ) : (0x7E : ℕ) ∉ stuffByte b := by
  rw [stuffByte]
  split
  · rename_i h
    rcases h with rfl | rfl <;> decide
  · rename_i h
    intro hmem
    rw [List.mem_singleton] at hmem
    exact h (Or.inl hmem.symm)

theorem bind_stuffByte_no7E (l : List ℕ) : (0x7E : ℕ) ∉ l.flatMap stuffByte := by
  induction l with
  | nil => simp
  | cons b l ih =>
    rw [List.cons_bind]
    intro hmem
    rcases List.mem_append.mp hmem with h | h
    · exact stuffByte_no7E b h
    · exact ih h

theorem stuffed_bind (l : List ℕ) : Stuffed (l.flatMap stuffByte) := by
  induction l with
  | nil => exact Stuffed.nil
  | cons b l ih =>
    rw [List.cons_bind, stuffByte]
    split
    · rename_i h
      exact Stuffed.escaped b _ h ih
    · rename_i h
      push_neg at h
      exact Stuffed.plain b _ h.1 h.2 ih

theorem latlon_to_gdl90_zero : latlon_to_gdl90 0 = (0, 0, 0) := by
  have h : rustRound (0 / (180 / 8388608 : ℚ)) = 0 := by
    rw [rustRound]
    norm_num
  simp only [latlon_to_gdl90, h]
  decide

/-- C9: when a Target's position is absent, or its timestamp is more than
6 s older than the tick's clock, `generate_traffic` leaves the six
latitude/longitude bytes (5-10) zero — the encoding of 0°N 0°E, since
`latlon_to_gdl90 0 = (0,0,0)` — and the NIC nibble of byte 13 is written
only when the position is fresh. -/
theorem c9_traffic_position_stale_zero (e : Target) (clock : ℕ) (p : Bool) :
    ((e.lat_lon = none ∨ ∃ ll i, e.lat_lon = some (ll, i) ∧ 6 < (clock - i) / 1000) →
      (∀ j, 5 ≤ j → j ≤ 10 → generate_traffic_buf e clock p j = 0) ∧
      generate_traffic_buf e clock p 13 &&& 0xF0 = 0) ∧
    latlon_to_gdl90 0 = (0, 0, 0) ∧
    (∀ ll i n, e.lat_lon = some (ll, i) → (clock - i) / 1000 ≤ 6 → e.nic = some n →
      generate_traffic_buf e clock p 13 &&& 0xF0 = (n <<< 4) &&& 0xF0) := by
  refine ⟨?_, latlon_to_gdl90_zero, ?_⟩
  · intro h
    have hs : e.lat_lon = none ∨
        ∃ ll i, e.lat_lon = some (ll, i) ∧ ¬ (clock - i) / 1000 ≤ 6 := by
      rcases h with h | ⟨ll, i, h1, h2⟩
      · exact Or.inl h
      · exact Or.inr ⟨ll, i, h1, by omega⟩
    constructor
    · intro j h5 h10
      rw [gtb_eval_lt17 _ _ _ _ (by omega), bufVs_out _ _ _ _ (by omega) (by omega),
        bufSpeed_out _ _ _ _ (by omega) (by omega),
        bufVelocityDefault_out _ _ (by omega) (by omega),
        bufNacp_out _ _ _ (by omega), bufAirborne_out _ _ _ (by omega),
        bufHeadingFlag_out _ _ _ _ (by omega),
        bufAltitude_out _ _ _ _ _ (by omega) (by omega),
        bufLatLon_stale _ _ _ hs, bufInit_out _ _ (by omega)]
    · rw [gtb_eval_lt17 _ _ _ _ (by omega), bufVs_out _ _ _ _ (by omega) (by omega),
        bufSpeed_out _ _ _ _ (by omega) (by omega),
        bufVelocityDefault_out _ _ (by omega) (by omega)]
      obtain ⟨x, hx, heq⟩ := bufNacp_13 e (bufAirborne e (bufHeadingFlag e clock
        (bufAltitude e clock p (bufLatLon e clock (bufInit e)))))
      rw [heq, or_and_eq _ _ _ (lt16_and_240 x hx),
        bufAirborne_out _ _ _ (by omega), bufHeadingFlag_out _ _ _ _ (by omega),
        bufAltitude_out _ _ _ _ _ (by omega) (by omega),
        bufLatLon_stale _ _ _ hs, bufInit_out _ _ (by omega)]
      rfl
  · intro ll i n hll hfresh hn
    rw [gtb_eval_lt17 _ _ _ _ (by omega), bufVs_out _ _ _ _ (by omega) (by omega),
      bufSpeed_out _ _ _ _ (by omega) (by omega),
      bufVelocityDefault_out _ _ (by omega) (by omega)]
    obtain ⟨x, hx, heq⟩ := bufNacp_13 e (bufAirborne e (bufHeadingFlag e clock
      (bufAltitude e clock p (bufLatLon e clock (bufInit e)))))
    rw [heq, or_and_eq _ _ _ (lt16_and_240 x hx),
      bufAirborne_out _ _ _ (by omega), bufHeadingFlag_out _ _ _ _ (by omega),
      bufAltitude_out _ _ _ _ _ (by omega) (by omega),
      bufLatLon_fresh_13 _ _ _ ll i n hll hfresh hn, bufInit_out _ _ (by omega),
      Nat.zero_or, and_240_and_240]

/-- C9 witness: a target with a position stamped at 0 ms is zeroed out at
tick 8000 ms (stale) and carries its NIC nibble at tick 1000 ms
(fresh). -/
theorem c9_traffic_position_stale_zero_witness :
    generate_traffic_buf exTarget9 8000 false 5 = 0 ∧
    generate_traffic_buf exTarget9 8000 false 13 &&& 0xF0 = 0 ∧
    generate_traffic_buf exTarget9 1000 false 13 &&& 0xF0 = 128 := by
  have hstale := (c9_traffic_position_stale_zero exTarget9 8000 false).1
    (Or.inr ⟨(1, 2), 0, rfl, by omega⟩)
  have hfresh := (c9_traffic_position_stale_zero exTarget9 1000 false).2.2
    (1, 2) 0 8 rfl (by omega) rfl
  exact ⟨hstale.1 5 (by omega) (by omega), hstale.2, hfresh.trans (by decide)⟩

/-- C1 counterexample: a Target whose altitude is present but whose
timestamp is 8 s old is NOT encoded with the invalid-altitude sentinel;
its altitude bits are left zero, unlike an absent altitude which does get
the all-ones sentinel. -/
theorem c1_counterexample :
    ¬ (generate_traffic_buf exTargetC1 8000 false 11 = 0xFF ∧
       generate_traffic_buf exTargetC1 8000 false 12 &&& 0xF0 = 0xF0) ∧
    generate_traffic_buf exTargetC1 8000 false 11 = 0 ∧
    generate_traffic_buf { exTargetC1 with altitude := none } 8000 false 11 = 0xFF := by
  refine ⟨?_, ?_, ?_⟩ <;> decide

/-- C1 (amended): in the traffic message, a stale or absent speed is
reported as the invalid-velocity sentinel, a stale or absent vertical
speed sets the no-vs flag, a stale or absent heading leaves the
heading-validity bits clear, and an absent altitude gets the all-ones
invalid sentinel — but a present-and-stale altitude is encoded with zero
altitude bits (the code for −1000 ft), not the invalid sentinel. -/
theorem c1_stale_field_sentinels (e : Target) (clock : ℕ) (p : Bool) :
    ((e.speed = none ∨ ∃ s t i, e.speed = some (s, t, i) ∧ 6 < (clock - i) / 1000) →
      generate_traffic_buf e clock p 14 = 0xFF ∧
      generate_traffic_buf e clock p 15 &&& 0xF0 = 0xF0) ∧
    ((e.vs = none ∨ ∃ v i, e.vs = some (v, i) ∧ 6 < (clock - i) / 1000) →
      generate_traffic_buf e clock p 15 &&& 0x08 = 0x08) ∧
    ((e.heading = none ∨ ∃ hd t i, e.heading = some (hd, t, i) ∧ 6 < (clock - i) / 1000) →
      generate_traffic_buf e clock p 12 &&& 0x03 = 0) ∧
    (e.altitude = none →
      generate_traffic_buf e clock p 11 = 0xFF ∧
      generate_traffic_buf e clock p 12 &&& 0xF0 = 0xF0) ∧
    (∀ alt t i, e.altitude = some (alt, t, i) → 6 < (clock - i) / 1000 →
      generate_traffic_buf e clock p 11 = 0 ∧
      generate_traffic_buf e clock p 12 &&& 0xF0 = 0) := by
  refine ⟨?_, ?_, ?_, ?_, ?_⟩
  · -- speed
    intro h
    have hs : e.speed = none ∨
        ∃ s t i, e.speed = some (s, t, i) ∧ ¬ (clock - i) / 1000 ≤ 6 := by
      rcases h with h | ⟨s, t, i, h1, h2⟩
      · exact Or.inl h
      · exact Or.inr ⟨s, t, i, h1, by omega⟩
    constructor
    · rw [gtb_eval_lt17 _ _ _ _ (by omega), bufVs_out _ _ _ _ (by omega) (by omega),
        bufSpeed_stale _ _ _ hs, (bufVelocityDefault_at _).1]
    · rw [gtb_eval_lt17 _ _ _ _ (by omega)]
      obtain ⟨x, hx, heq⟩ := bufVs_15 e clock (bufSpeed e clock (bufVelocityDefault
        (bufNacp e (bufAirborne e (bufHeadingFlag e clock (bufAltitude e clock p
          (bufLatLon e clock (bufInit e))))))))
      rw [heq, or_and_eq _ _ _ (lt16_and_240 x hx), bufSpeed_stale _ _ _ hs,
        (bufVelocityDefault_at _).2]
      rfl
  · -- vertical speed
    intro h
    have hs : e.vs = none ∨ ∃ v i, e.vs = some (v, i) ∧ ¬ (clock - i) / 1000 ≤ 6 := by
      rcases h with h | ⟨v, i, h1, h2⟩
      · exact Or.inl h
      · exact Or.inr ⟨v, i, h1, by omega⟩
    rw [gtb_eval_lt17 _ _ _ _ (by omega), bufVs_stale_15 _ _ _ hs, or_and_self_right]
  · -- heading flags
    intro h
    have hs : e.heading = none ∨
        ∃ hd t i, e.heading = some (hd, t, i) ∧ ¬ (clock - i) / 1000 ≤ 6 := by
      rcases h with h | ⟨hd, t, i, h1, h2⟩
      · exact Or.inl h
      · exact Or.inr ⟨hd, t, i, h1, by omega⟩
    rw [gtb_eval_lt17 _ _ _ _ (by omega), bufVs_out _ _ _ _ (by omega) (by omega),
      bufSpeed_out _ _ _ _ (by omega) (by omega),
      bufVelocityDefault_out _ _ (by omega) (by omega), bufNacp_out _ _ _ (by omega)]
    obtain ⟨x, hx, heq⟩ := bufAirborne_12 e (bufHeadingFlag e clock (bufAltitude e clock p
      (bufLatLon e clock (bufInit e))))
    have hx3 : x &&& 3 = 0 := by rcases hx with rfl | rfl <;> rfl
    rw [heq, or_and_eq _ _ _ hx3, bufHeadingFlag_stale _ _ _ hs]
    rcases bufAltitude_12_and3 e clock p (bufLatLon e clock (bufInit e)) with h3 | h3
    · exact h3
    · rw [h3, bufLatLon_out _ _ _ _ (by omega), bufInit_out _ _ (by omega)]
      rfl
  · -- absent altitude
    intro h
    constructor
    · rw [gtb_eval_lt17 _ _ _ _ (by omega), bufVs_out _ _ _ _ (by omega) (by omega),
        bufSpeed_out _ _ _ _ (by omega) (by omega),
        bufVelocityDefault_out _ _ (by omega) (by omega), bufNacp_out _ _ _ (by omega),
        bufAirborne_out _ _ _ (by omega), bufHeadingFlag_out _ _ _ _ (by omega),
        (bufAltitude_none _ clock p _ h).1]
    · rw [gtb_eval_lt17 _ _ _ _ (by omega), bufVs_out _ _ _ _ (by omega) (by omega),
        bufSpeed_out _ _ _ _ (by omega) (by omega),
        bufVelocityDefault_out _ _ (by omega) (by omega), bufNacp_out _ _ _ (by omega)]
      obtain ⟨x, hx, heq⟩ := bufAirborne_12 e (bufHeadingFlag e clock (bufAltitude e clock p
        (bufLatLon e clock (bufInit e))))
      have hx240 : x &&& 240 = 0 := by rcases hx with rfl | rfl <;> rfl
      rw [heq, or_and_eq _ _ _ hx240]
      obtain ⟨y, hy, heq2⟩ := bufHeadingFlag_12 e clock (bufAltitude e clock p
        (bufLatLon e clock (bufInit e)))
      rw [heq2, or_and_eq _ _ _ (lt16_and_240 y hy), (bufAltitude_none _ clock p _ h).2]
      rfl
  · -- present but stale altitude
    intro alt t i h hstale
    have hs : ¬ (clock - i) / 1000 ≤ 6 := by omega
    constructor
    · rw [gtb_eval_lt17 _ _ _ _ (by omega), bufVs_out _ _ _ _ (by omega) (by omega),
        bufSpeed_out _ _ _ _ (by omega) (by omega),
        bufVelocityDefault_out _ _ (by omega) (by omega), bufNacp_out _ _ _ (by omega),
        bufAirborne_out _ _ _ (by omega), bufHeadingFlag_out _ _ _ _ (by omega),
        bufAltitude_stale _ _ _ _ _ _ _ h hs, bufLatLon_out _ _ _ _ (by omega),
        bufInit_out _ _ (by omega)]
    · rw [gtb_eval_lt17 _ _ _ _ (by omega), bufVs_out _ _ _ _ (by omega) (by omega),
        bufSpeed_out _ _ _ _ (by omega) (by omega),
        bufVelocityDefault_out _ _ (by omega) (by omega), bufNacp_out _ _ _ (by omega)]
      obtain ⟨x, hx, heq⟩ := bufAirborne_12 e (bufHeadingFlag e clock (bufAltitude e clock p
        (bufLatLon e clock (bufInit e))))
      have hx240 : x &&& 240 = 0 := by rcases hx with rfl | rfl <;> rfl
      rw [heq, or_and_eq _ _ _ hx240]
      obtain ⟨y, hy, heq2⟩ := bufHeadingFlag_12 e clock (bufAltitude e clock p
        (bufLatLon e clock (bufInit e)))
      rw [heq2, or_and_eq _ _ _ (lt16_and_240 y hy),
        bufAltitude_stale _ _ _ _ _ _ _ h hs, bufLatLon_out _ _ _ _ (by omega),
        bufInit_out _ _ (by omega)]
      rfl

/-- C1 witness: with speed absent and a stale altitude at tick 8000 ms,
byte 14 carries the velocity sentinel and byte 11 is zero. -/
theorem c1_stale_field_sentinels_witness :
    generate_traffic_buf exTargetC1 8000 false 14 = 0xFF ∧
    generate_traffic_buf exTargetC1 8000 false 11 = 0 :=
  ⟨((c1_stale_field_sentinels exTargetC1 8000 false).1 (Or.inl rfl)).1,
   ((c1_stale_field_sentinels exTargetC1 8000 false).2.2.2.2 5000 AltitudeType.Baro 0
      rfl (by omega)).1⟩

/-- C7: every frame returned by `prepare_payload` is one unescaped `0x7E`
flag, then a well-stuffed interior in which `0x7E` never occurs and every
`0x7D` starts an escape pair `0x7D, b ^ 0x20` for an original `0x7E` or
`0x7D` of the message-or-CRC span, then one final unescaped `0x7E`; the
frame contains exactly two `0x7E` bytes in total. -/
theorem c7_frame_stuffing (buf : List ℕ) :
    ∃ interior,
      prepare_payload buf = 0x7E :: interior ++ [0x7E] ∧
      (0x7E : ℕ) ∉ interior ∧ Stuffed interior ∧
      interior = (buf.take (buf.length - 2) ++
        [crc16 (buf.take (buf.length - 2)) % 256,
         crc16 (buf.take (buf.length - 2)) >>> 8]).flatMap stuffByte ∧
      (prepare_payload buf).count 0x7E = 2 := by
  refine ⟨(buf.take (buf.length - 2) ++
      [crc16 (buf.take (buf.length - 2)) % 256,
       crc16 (buf.take (buf.length - 2)) >>> 8]).flatMap stuffByte,
    rfl, bind_stuffByte_no7E _, stuffed_bind _, rfl, ?_⟩
  rw [show prepare_payload buf = 0x7E :: (buf.take (buf.length - 2) ++
      [crc16 (buf.take (buf.length - 2)) % 256,
       crc16 (buf.take (buf.length - 2)) >>> 8]).flatMap stuffByte ++ [0x7E] from rfl]
  have h1 : List.count 0x7E ((buf.take (buf.length - 2)).flatMap stuffByte) = 0 :=
    List.count_eq_zero.mpr (bind_stuffByte_no7E _)
  have h2 : ∀ b : ℕ, List.count 0x7E (stuffByte b) = 0 := fun b =>
    List.count_eq_zero.mpr (stuffByte_no7E b)
  simp [List.count_cons, List.count_append, h1, h2]

set_option maxRecDepth 4000 in
/-- C3 counterexample: at 10 Hz with 50 full-MTU queueable items and no
new ingress, the queue is NOT empty after 10 ticks. -/
theorem c3_counterexample : udpIter 10 (List.replicate 50 1472) 10 ≠ [] := by
  decide

set_option maxRecDepth 4000 in
/-- C3 (amended): each tick the UDP transport pops
`to_drain = ceil(|queue|/freq)` queueable items into the outgoing buffer
(for full-MTU items the opportunistic fill takes nothing extra); hence at
10 Hz with 50 full-MTU items and no new ingress the queue empties in
exactly 22 ticks, not 10. -/
theorem c3_udp_drain_pacing :
    (∀ (freq : ℕ) (q : List ℕ), 0 < freq → (∀ s ∈ q, s = 1472) →
      (udpTick freq q).length = q.length - (q.length + freq - 1) / freq) ∧
    udpIter 10 (List.replicate 50 1472) 22 = [] ∧
    udpIter 10 (List.replicate 50 1472) 21 ≠ [] := by
  refine ⟨?_, by decide, by decide⟩
  intro freq q hf hall
  rw [udpTick_1472 freq q hf hall, List.length_drop]

/-- C3 witness: one tick at 10 Hz removes `ceil(50/10) = 5` of the 50
items. -/
theorem c3_udp_drain_pacing_witness :
    (udpTick 10 (List.replicate 50 1472)).length = 45 := by
  have h := c3_udp_drain_pacing.1 10 (List.replicate 50 1472) (by norm_num)
    (fun s hs => List.eq_of_mem_replicate hs)
  rw [h]
  decide

/-- C10: a newly inserted client starts with `active = true`,
`in_app = false` and all three timestamps equal to the tick clock;
consequently no inactive-buffer replay can be sent to that client less
than 30 s (the replay interval) after it was added. -/
theorem c10_client_replay_delay (t0 : ℕ) :
    newClient t0 = { active := true
                     last_reply := t0
                     in_app := false
                     last_refused := t0
                     last_replay := t0 } ∧
    (∀ (pre : List (ℕ × Bool)) (now : ℕ) (g : Bool),
      (∀ p ∈ pre, t0 ≤ p.1) → t0 ≤ now →
      (clientTick now g (clientRun (newClient t0) pre)).2 = true →
      t0 + 30000 ≤ now) := by
  refine ⟨rfl, ?_⟩
  intro pre now g hpre hnow hrep
  have h1 : t0 ≤ (clientRun (newClient t0) pre).last_replay :=
    clientRun_last_replay_ge t0 pre hpre _ le_rfl
  have h2 := clientTick_replay_bound now g _ hrep
  omega

/-- C10 witness: a client added at 0 ms that first looks in-app at
35000 ms does get its replay then, and 35000 ms is indeed at least 30 s
after insertion. -/
theorem c10_client_replay_delay_witness : (0 : ℕ) + 30000 ≤ 35000 :=
  (c10_client_replay_delay 0).2 [] 35000 true (by simp) (by omega) (by decide)

/-- C8: the `run_every` discipline increments its counter once per tick
and runs the body exactly when the counter reaches the threshold
`(freq_hz / hz)` rounded down (with minimum 1); hence the body runs
exactly once every `max 1 (floor (freq_hz / hz))` ticks. -/
theorem c8_run_every (freq : ℕ) (hz : ℚ) (n : ℕ) :
    run_every_fires (run_every_threshold freq hz) n = true ↔
      (n + 1) % max 1 (run_every_threshold freq hz) = 0 :=
  run_every_fires_iff (run_every_threshold freq hz) n

end Pitot
